import Mathlib

/-!
Shallow embedding of the relative-strength ranking and criteria-evaluation
pipeline of the us_stock_wizard repository
(screener/rs_calculator.py, screener/ta_analyzer.py, screener/daily_screener.py),
together with theorems settling the specification claims about it.

Modelling conventions:
* dates are day numbers (ℤ); a calendar day difference of H days is subtraction by H;
* prices and volumes are exact rationals (ℚ) standing for the floats of the source;
* a pandas NaN produced by a too-short rolling window is `none : Option ℚ`, and a
  comparison against NaN is false (`optLt`), as in pandas;
* a Python exception is `none` / `Except.error`; a documented skip that returns
  None in the source is `Except.ok none` where the distinction matters;
* `astype(int)` / `int(...)` on a nonnegative float is integer truncation toward
  zero, embedded as `pyTrunc`.
-/

namespace StockWizard

/-- A daily OHLCV bar (DailyKline row).  The source code never reads the open
column in the embedded functions, so it is omitted. -/
structure Bar where
  date : ℤ
  high : ℚ
  low : ℚ
  close : ℚ
  adjClose : ℚ
  volume : ℚ
deriving DecidableEq, Repr

/-- Bar with a single price everywhere, used to build concrete histories. -/
def flatBar (d : ℤ) (p : ℚ) : Bar :=
  { date := d, high := p, low := p, close := p, adjClose := p, volume := 1 }

/-- Bar with separate close and adjusted close. -/
def mixedBar (d : ℤ) (c a : ℚ) : Bar :=
  { date := d, high := c, low := c, close := c, adjClose := a, volume := 1 }

/-- Mean of a list of rationals; `none` on the empty list (pandas mean of an
empty window is NaN). -/
def meanOpt (l : List ℚ) : Option ℚ :=
  if l.isEmpty then none else some (l.sum / l.length)

/-- pandas comparison `a < b` where either side may be NaN: false if either is. -/
def optLt (a b : Option ℚ) : Bool :=
  match a, b with
  | some x, some y => decide (x < y)
  | _, _ => false

/-- Python `int(...)` / numpy `astype(int)` on a (finite) float: truncation
toward zero (floor for nonnegative values, ceiling for negative ones). -/
def pyTrunc (q : ℚ) : ℤ := if 0 ≤ q then ⌊q⌋ else -⌊-q⌋

/-- adjClose column of a kline. -/
def closesOf (kline : List Bar) : List ℚ := kline.map (fun b => b.adjClose)

/-- volume column of a kline. -/
def volsOf (kline : List Bar) : List ℚ := kline.map (fun b => b.volume)

/-- `series.tail(k).mean()`: mean of the last `k` entries (all of them when the
series is shorter). -/
def tailMean (k : ℕ) (l : List ℚ) : Option ℚ := meanOpt (l.drop (l.length - k))

/-!
## Cross-sectional ranker
(`RelativeStrengthCalculator.batch_get_all_rs`, rs_calculator.py lines 126-134)

For a fixed date the frame row holds one float score per ticker;
`rank(ascending=True)` assigns average ranks on ties, then
`rscore = (rank / len * 100).astype(int)`.
-/

/-- Number of scores strictly below `x` in the snapshot. -/
def countLT (l : List ℚ) (x : ℚ) : ℕ := l.countP (fun y => decide (y < x))

/-- Number of scores equal to `x` in the snapshot. -/
def countEQ (l : List ℚ) (x : ℚ) : ℕ := l.countP (fun y => decide (y = x))

/-- pandas `rank(ascending=True)` (method="average") of the value `x` within
the snapshot `l`: tied values receive the mean of the positions they occupy. -/
def avgRank (l : List ℚ) (x : ℚ) : ℚ :=
  (countLT l x : ℚ) + ((countEQ l x : ℚ) + 1) / 2

/-- The raw percentile `rank / len * 100` before integer conversion. -/
def rawPct (l : List ℚ) (x : ℚ) : ℚ := avgRank l x / (l.length : ℚ) * 100

/-- The integer rscore written to the RelativeStrength table:
`(rank / len * 100).astype(int)` (rs_calculator.py lines 132-134). -/
def rscoreOf (l : List ℚ) (x : ℚ) : ℤ := pyTrunc (rawPct l x)

/-- Formalisation of the claim wording (spec §4.2): percentile =
`round(rank / count × 100)`, clamped to [0,100].  Kept separate from the
source-derived `rscoreOf` so the two can be compared. -/
def specRscoreOf (l : List ℚ) (x : ℚ) : ℤ :=
  max 0 (min 100 (round (rawPct l x)))

/-!
## Momentum scores
(`RelativeStrengthCalculator.batch_get_rs` / `get_rs`, rs_calculator.py)
-/

/-- Value of the daily-resampled, forward-filled adjClose series at day `t`
(`kline.resample("D").ffill()` evaluated at index `t`, for a date-sorted
kline): the adjClose of the last bar dated at or before `t`. -/
def ffillAdj (kline : List Bar) (t : ℤ) : Option ℚ :=
  ((kline.filter (fun b => decide (b.date ≤ t))).getLast?).map (fun b => b.adjClose)

/-- Recursive characterisation of `ffillAdj` (last price at or before `t`),
used to state the corrected claim C1. -/
def lastPriceLE (t : ℤ) : List Bar → Option ℚ
  | [] => none
  | b :: rest =>
    if b.date ≤ t then some ((lastPriceLE t rest).getD b.adjClose)
    else lastPriceLE t rest

/-- adjClose of the first bar dated at or after `t`
(`kline[kline["date"] >= t]` followed by `iloc[0]`, rs_calculator.py
lines 195-206). -/
def firstPriceGE (t : ℤ) (kline : List Bar) : Option ℚ :=
  ((kline.filter (fun b => decide (t ≤ b.date))).head?).map (fun b => b.adjClose)

/-- Composite momentum score of one ticker at day `d` as computed by
`batch_get_rs` (rs_calculator.py lines 65-82), the function feeding the
primary rscore rank in `batch_get_all_rs`:

* returns `none` (ticker skipped) when the full history has fewer than 252 bars;
* the kline is resampled to calendar days and forward-filled, so the value at a
  day is the last bar at or before it; a row for day `d` exists only when `d`
  lies between the first and last bar date;
* `shift(H)` reads the forward-filled price at `d - H`, NaN (`none`) when
  `d - H` precedes the first bar; a NaN in any horizon makes the whole score
  NaN, which `batch_get_all_rs` later drops (`dropna`). -/
def batchRsScore (kline : List Bar) (d : ℤ) : Option ℚ :=
  if kline.length < 252 then none
  else
    match kline.head?, kline.getLast? with
    | some f, some g =>
      if d < f.date ∨ g.date < d then none
      else
        match ffillAdj kline d, ffillAdj kline (d - 90), ffillAdj kline (d - 180),
            ffillAdj kline (d - 270), ffillAdj kline (d - 360) with
        | some a, some p90, some p180, some p270, some p360 =>
          some (a / p90 * 0.4 + a / p180 * 0.2 + a / p270 * 0.2 + a / p360 * 0.2)
        | _, _, _, _, _ => none
    | _, _ => none

/-- Formalisation of the claim wording for C1 (spec §4.1): composite
score with the numerator taken as the last available price at or before
the as-of date and each denominator taken from the first bar dated at or after
(as-of date - H).  This matches the uncalled `get_rs`, and is kept separate from
the source-derived `batchRsScore` so the two can be compared. -/
def specMomentumScore (kline : List Bar) (d : ℤ) : Option ℚ :=
  match lastPriceLE d kline, firstPriceGE (d - 90) kline, firstPriceGE (d - 180) kline,
      firstPriceGE (d - 270) kline, firstPriceGE (d - 360) kline with
  | some a, some p90, some p180, some p270, some p360 =>
    some (0.4 * (a / p90) + 0.2 * (a / p180) + 0.2 * (a / p270) + 0.2 * (a / p360))
  | _, _, _, _, _ => none

/-- Embedding of `RelativeStrengthCalculator.get_rs` (rs_calculator.py lines
175-214).
`Except.ok none` is the documented skip (non-trading day, or fewer than 252
bars at the date); `Except.error` is a raised IndexError (`iloc[0]` of an
empty selection). -/
def getRs (calendar : List ℤ) (kline : List Bar) (d : ℤ) : Except String (Option ℚ) :=
  if calendar.contains d then
    let k := kline.filter (fun b => decide (b.date ≤ d))
    if k.length < 252 then Except.ok none
    else
      match (k.getLast?).map (fun b => b.adjClose), firstPriceGE (d - 90) k,
          firstPriceGE (d - 180) k, firstPriceGE (d - 270) k, firstPriceGE (d - 360) k with
      | some pn, some p3, some p6, some p9, some p12 =>
        Except.ok (some (0.4 * (pn / p3) + 0.2 * (pn / p6) + 0.2 * (pn / p9) + 0.2 * (pn / p12)))
      | _, _, _, _, _ => Except.error "IndexError"
  else Except.ok none

/-!
## Criteria engine (`TaAnalyzer`, ta_analyzer.py)
-/

/-- Rolling mean of window `n` evaluated at the last row: NaN (`none`) when
fewer than `n` rows exist, the mean of the last `n` values otherwise. -/
def rollingMeanLast (n : ℕ) (l : List ℚ) : Option ℚ :=
  if l.length < n then none else meanOpt (l.drop (l.length - n))

/-- Rolling max of window `n` evaluated at the last row. -/
def rollingMaxLast (n : ℕ) (l : List ℚ) : Option ℚ :=
  if l.length < n then none else (l.drop (l.length - n)).max?

/-- Rolling min of window `n` evaluated at the last row. -/
def rollingMinLast (n : ℕ) (l : List ℚ) : Option ℚ :=
  if l.length < n then none else (l.drop (l.length - n)).min?

/-- Rolling mean of window `n` evaluated at row index `j` (NaN while fewer
than `n` rows are available). -/
def maAt (n : ℕ) (l : List ℚ) (j : ℕ) : Option ℚ :=
  if j + 1 < n then none else meanOpt ((l.take (j + 1)).drop (j + 1 - n))

/-- Running maximum seeded with `m` (helper for `cummax`). -/
def cummaxFrom (m : ℚ) : List ℚ → List ℚ
  | [] => []
  | x :: xs => max m x :: cummaxFrom (max m x) xs

/-- pandas `cummax` over a series. -/
def cummax : List ℚ → List ℚ
  | [] => []
  | x :: xs => x :: cummaxFrom x xs

/-- Max drawdown over the trailing 90 bars as computed in `_cret_stage_2`
(ta_analyzer.py lines 177-184): the window is `iloc[-90:]`, the running max is
taken over the adjClose column, and the drawdown is `close / cummax - 1`;
the result is the minimum over the window (`none` only for an empty kline). -/
def ddMin (kline : List Bar) : Option ℚ :=
  let w := kline.drop (kline.length - 90)
  (List.zipWith (fun b m => b.close / m - 1) w (cummax (w.map (fun b => b.adjClose)))).min?

/-- Formalisation of the claim wording for C5 (spec §4.3 sub-condition 12):
max drawdown over the trailing 90 bars computed as
`close / rolling-max(close) - 1`, i.e. with the running max taken over the
raw close column.  Kept separate from the source-derived `ddMin` so the two
can be compared. -/
def specC5DrawdownMin (kline : List Bar) : Option ℚ :=
  let w := kline.drop (kline.length - 90)
  (List.zipWith (fun b m => b.close / m - 1) w (cummax (w.map (fun b => b.close)))).min?

/-- STAGE2 sub-condition 1: latest adjClose above MA150 (NaN comparison false). -/
def stage2_c1 (kline : List Bar) (latest : Bar) : Bool :=
  optLt (rollingMeanLast 150 (closesOf kline)) (some latest.adjClose)

/-- STAGE2 sub-condition 2 (ta_analyzer.py line 159):
`latest["ma150"] > latest["ma200"] if self.rs[0] < 85 else True` — the
MA comparison is checked when the composite percentile is below 85 and
waived (True) when it is 85 or above. -/
def stage2_c2 (rs0 : ℤ) (ma150 ma200 : Option ℚ) : Bool :=
  if rs0 < 85 then optLt ma200 ma150 else true

/-- STAGE2 sub-condition 3: MA200 of the last row above MA200 of 20 rows
earlier (ta_analyzer.py lines 162-164). -/
def stage2_c3 (kline : List Bar) : Bool :=
  let closes := closesOf kline
  let L := kline.length
  let j0 := if 20 ≤ L then L - 20 else 0
  optLt (maAt 200 closes j0) (maAt 200 closes (L - 1))

/-- STAGE2 sub-condition 4: MA50 above MA150. -/
def stage2_c4 (kline : List Bar) : Bool :=
  optLt (rollingMeanLast 150 (closesOf kline)) (rollingMeanLast 50 (closesOf kline))

/-- STAGE2 sub-condition 5: latest adjClose at least 25% above the 250-bar low. -/
def stage2_c5 (kline : List Bar) (latest : Bar) : Bool :=
  match rollingMinLast 250 (closesOf kline) with
  | some lo => decide (lo * 1.25 < latest.adjClose)
  | none => false

/-- STAGE2 sub-condition 6: latest adjClose within 25% of the 250-bar high. -/
def stage2_c6 (kline : List Bar) (latest : Bar) : Bool :=
  match rollingMaxLast 250 (closesOf kline) with
  | some hi => decide (hi * 0.75 < latest.adjClose)
  | none => false

/-- STAGE2 sub-condition 7: composite RS percentile above 70. -/
def stage2_c7 (rs0 : ℤ) : Bool := decide (70 < rs0)

/-- STAGE2 sub-condition 8: latest adjClose above MA50. -/
def stage2_c8 (kline : List Bar) (latest : Bar) : Bool :=
  optLt (rollingMeanLast 50 (closesOf kline)) (some latest.adjClose)

/-- STAGE2 sub-condition 12: drawdown floor (ta_analyzer.py lines 177-186);
true unless the max drawdown falls below -0.35 (a NaN minimum, possible only
on an empty window, leaves it true). -/
def stage2_c12 (kline : List Bar) : Bool :=
  match ddMin kline with
  | none => true
  | some m => !(decide (m < -0.35))

/-- The twelve STAGE2 booleans, in source order (`latest` is the last bar and
`tv` the mean volume of the trailing 20 bars, both extracted by `stage2`).
Sub-conditions 9-11 are inlined: price floor 5, 20-day average share volume
floor 25000 after `int(...)` truncation, and the disabled extension guard
(hard-coded True, ta_analyzer.py line 175). -/
def stage2Conds (kline : List Bar) (rs : List ℤ) (latest : Bar) (tv : ℚ) : List Bool :=
  [stage2_c1 kline latest,
   stage2_c2 (rs.getD 0 0) (rollingMeanLast 150 (closesOf kline))
     (rollingMeanLast 200 (closesOf kline)),
   stage2_c3 kline,
   stage2_c4 kline,
   stage2_c5 kline latest,
   stage2_c6 kline latest,
   stage2_c7 (rs.getD 0 0),
   stage2_c8 kline latest,
   decide ((5 : ℚ) ≤ latest.adjClose),
   decide (25000 ≤ pyTrunc tv),
   true,
   stage2_c12 kline]

/-- Embedding of `TaAnalyzer._cret_stage_2` (ta_analyzer.py lines 123-192):
the criterion passes when the sum of the twelve booleans reaches 12.
The result is `none` exactly when the source raises: `iloc[-1]` on an empty
frame, or `int(...)` of the NaN mean volume of an empty series. -/
def stage2 (kline : List Bar) (rs : List ℤ) : Option Bool :=
  match kline.getLast?, tailMean 20 (volsOf kline) with
  | some latest, some tv =>
    some (decide (12 ≤ (stage2Conds kline rs latest tv).count true))
  | _, _ => none

/-- Every 10th element of a series (`iloc[::10, :]`). -/
def every10 (l : List (Option ℚ)) : List (Option ℚ) :=
  (l.enum.filter (fun p => p.fst % 10 == 0)).map (fun p => p.snd)

/-- pandas `is_monotonic_increasing` (non-strict) on a series that may hold
NaN entries: any NaN taking part in a comparison yields false; empty and
singleton series are monotone. -/
def isMonoInc : List (Option ℚ) → Bool
  | [] => true
  | [_] => true
  | a :: b :: rest =>
    (match a, b with
     | some x, some y => decide (x ≤ y)
     | _, _ => false) && isMonoInc (b :: rest)

/-- Number of days in `m` calendar months; `relativedelta(months=m)` is
modelled with 30-day months (dates being plain day numbers). -/
def monthsDays (m : ℕ) : ℤ := 30 * (m : ℤ)

/-- Embedding of `TaAnalyzer._cret_minervini` (ta_analyzer.py lines 194-207):
MA200 over the full kline, restricted to rows dated within the last `months`
months ending at the wall-clock date `today` (not the evaluation date), then
sampled every 10th row and tested for monotone increase. -/
def minervini (today : ℤ) (kline : List Bar) (months : ℕ) : Bool :=
  let startD := today - monthsDays months
  let closes := closesOf kline
  let ma200s := (List.range kline.length).map (fun j => maAt 200 closes j)
  let rows := (kline.zip ma200s).filter
    (fun p => decide (startD ≤ p.fst.date) && decide (p.fst.date ≤ today))
  isMonoInc (every10 (rows.map (fun p => p.snd)))

/-- Embedding of `TaAnalyzer._cret_days_vol` (ta_analyzer.py lines 209-221):
range of the close column over the last `days` rows at most `1 + vol`
(false when the window is empty, NaN semantics). -/
def daysVol (kline : List Bar) (days : ℕ) (vol : ℚ) : Bool :=
  let k := kline.drop (kline.length - days)
  match (k.map (fun b => b.close)).max?, (k.map (fun b => b.close)).min? with
  | some hi, some lo => decide (hi / lo ≤ 1 + vol)
  | _, _ => false

/-- Embedding of `TaAnalyzer._cret_recent_low_volume` (ta_analyzer.py lines
223-242).  Note the guard: the source reads
`if not kline.shape[0] < 20: return False` after `tail(20)`, so any history
with at least 20 bars returns False immediately; the volume comparison is
reachable only for shorter histories.  Python `min` of the three window means
is the rational minimum (all three are non-NaN once the window is nonempty;
for the empty window the NaN comparison is false). -/
def recentLowVolume (kline : List Bar) (days : ℕ) : Bool :=
  let k := kline.drop (kline.length - 20)
  if !(k.length < 20) then false
  else
    let vols := k.map (fun b => b.volume)
    match meanOpt (vols.drop (vols.length - days)), meanOpt (vols.drop (vols.length - 5)),
        meanOpt (vols.drop (vols.length - 10)), meanOpt (vols.drop (vols.length - 20)) with
    | some a, some m5, some m10, some m20 => decide (a < min m5 (min m10 m20))
    | _, _, _, _ => false

/-- Embedding of `TaAnalyzer._cret_qull` (ta_analyzer.py lines 244-289):
months must be 1/3/6; the matching M-percentile must exceed 90; the 20-day
ADR must be at least 4 and the 20-day mean dollar volume at least 8M (both
guards written as in the source: a NaN comparison is false, so an empty
window slips through them). -/
def qull (months : ℕ) (kline : List Bar) (rs : List ℤ) : Bool :=
  if months = 1 ∨ months = 3 ∨ months = 6 then
    let r := if months = 1 then rs.getD 1 0 else if months = 3 then rs.getD 2 0 else rs.getD 3 0
    if r ≤ 90 then false
    else
      let w := kline.drop (kline.length - 20)
      let adr := (meanOpt (w.map (fun b => b.high / b.low))).map (fun m => 100 * (m - 1))
      if optLt adr (some 4) then false
      else if optLt (meanOpt (w.map (fun b => b.volume * b.close))) (some 8000000) then false
      else true
  else false

/-- Embedding of the `rs or [0, 0, 0, 0]` default in `TaAnalyzer.__init__`
(ta_analyzer.py line 57): both None and the empty list (falsy) fall back to
the zero vector. -/
def rsOrDefault (rs : Option (List ℤ)) : List ℤ :=
  match rs with
  | none => [0, 0, 0, 0]
  | some [] => [0, 0, 0, 0]
  | some l => l

/-- Criterion names (`TaMeasurements`). -/
inductive Meas where
  | stage2m
  | minervini5m
  | minervini1m
  | sevenDayLowVol
  | recentLowVol
  | qullM1
  | qullM3
  | qullM6
deriving DecidableEq, Repr

/-- All criteria, in enum order (`TaMeasurements.list()`). -/
def allMeas : List Meas :=
  [.stage2m, .minervini5m, .minervini1m, .sevenDayLowVol, .recentLowVol,
   .qullM1, .qullM3, .qullM6]

/-- Embedding of the `cret or TaMeasurements.list()` default in
`TaAnalyzer.__init__` (ta_analyzer.py line 61). -/
def cretOrDefault (cret : List Meas) : List Meas :=
  if cret.isEmpty then allMeas else cret

/-- Dispatch of one criterion as in `TaAnalyzer.get_result` (ta_analyzer.py
lines 94-120), with the argument values used there (`days=7, vol=0.12`,
`days=1`, months per criterion).  Only the STAGE2 branch can raise. -/
def evalCret (today : ℤ) (k : List Bar) (rs : List ℤ) : Meas → Option Bool
  | .stage2m => stage2 k rs
  | .minervini5m => some (minervini today k 5)
  | .minervini1m => some (minervini today k 1)
  | .sevenDayLowVol => some (daysVol k 7 0.12)
  | .recentLowVol => some (recentLowVolume k 1)
  | .qullM1 => some (qull 1 k rs)
  | .qullM3 => some (qull 3 k rs)
  | .qullM6 => some (qull 6 k rs)

/-- Insertion step for `sortByDate`. -/
def insertByDate (b : Bar) : List Bar → List Bar
  | [] => [b]
  | x :: xs => if b.date ≤ x.date then b :: x :: xs else x :: insertByDate b xs

/-- Embedding of `kline.sort_values(by="date", ascending=True)`: a date sort.
The DailyKline data model has at most one bar per (ticker, date), so the
relative order of equal dates is immaterial. -/
def sortByDate : List Bar → List Bar
  | [] => []
  | x :: xs => insertByDate x (sortByDate xs)

/-- Embedding of `TaAnalyzer.get_result` (ta_analyzer.py lines 73-121):
the evaluation date defaults to the wall-clock date `today`; the kline is
restricted to bars at or before it and sorted by date; each selected
criterion is evaluated in order into a name-to-bool mapping. -/
def getResult (today : ℤ) (kline : List Bar) (rs : List ℤ) (cret : List Meas)
    (date : Option ℤ) : Option (List (Meas × Bool)) :=
  let d := date.getD today
  let k := sortByDate (kline.filter (fun b => decide (b.date ≤ d)))
  (cretOrDefault cret).mapM (fun c => (evalCret today k rs c).map (fun v => (c, v)))

/-!
## Daily screener (`DailyScreener`, daily_screener.py)
-/

/-- One RelativeStrength row for the evaluation date. -/
structure RsRecord where
  ticker : String
  rscore : ℤ
  m1 : ℤ
  m3 : ℤ
  m6 : ℤ
deriving DecidableEq, Repr

/-- Columns of the DataFrame returned for the day's RelativeStrength rows: a
result with no rows converts to a DataFrame with no columns at all. -/
def rsFrameCols (rows : List RsRecord) : List String :=
  if rows.isEmpty then [] else ["date", "ticker", "rscore", "M1", "M3", "M6"]

/-- Embedding of `DailyScreener.initialize` (daily_screener.py lines 26-45).
The source first selects the columns `["rscore", "M1, M3", "M6"]` (note the
literal "M1, M3" entry); a missing column raises a KeyError.  Only afterwards
does it test for emptiness and raise the explicit ValueError.  The success
branch — unreachable, because "M1, M3" is never a column name — would build
the ticker-to-percentiles mapping. -/
def dailyInitialize (rows : List RsRecord) :
    Except String (List (String × List ℤ)) :=
  if (["rscore", "M1, M3", "M6"].all (fun c => (rsFrameCols rows).contains c)) then
    if rows.isEmpty then Except.error "No relative strength data found!"
    else Except.ok (rows.map (fun r => (r.ticker, [r.rscore, r.m1, r.m3, r.m6])))
  else Except.error "KeyError: not in index"

/-!
## Ranking lemmas (claims C2, C9)
-/

theorem pyTrunc_eq_floor (q : ℚ) (h : 0 ≤ q) : pyTrunc q = ⌊q⌋ := by
  simp [pyTrunc, h]

theorem countEQ_pos {l : List ℚ} {x : ℚ} (hx : x ∈ l) : 1 ≤ countEQ l x := by
  have : 0 < l.countP (fun y => decide (y = x)) :=
    List.countP_pos_iff.mpr ⟨x, hx, by simp⟩
  simpa [countEQ] using this

theorem countLT_add_countEQ_le_length (l : List ℚ) (x : ℚ) :
    countLT l x + countEQ l x ≤ l.length := by
  induction l with
  | nil => simp [countLT, countEQ]
  | cons y t ih =>
    simp only [countLT, countEQ, List.countP_cons, List.length_cons] at *
    rcases lt_trichotomy y x with h | h | h
    · simp [h, ne_of_lt h]; omega
    · subst h; simp [lt_irrefl]; omega
    · simp [not_lt_of_lt h, ne_of_gt h]; omega

theorem countLT_add_countEQ_le_countLT (l : List ℚ) {a b : ℚ} (hab : b < a) :
    countLT l b + countEQ l b ≤ countLT l a := by
  induction l with
  | nil => simp [countLT, countEQ]
  | cons y t ih =>
    simp only [countLT, countEQ, List.countP_cons] at *
    by_cases h1 : y < b
    · have h2 : y < a := h1.trans hab
      have h3 : ¬ y = b := ne_of_lt h1
      simp [h1, h2, h3]; omega
    · by_cases h4 : y = b
      · subst h4
        simp [h1, hab, lt_irrefl]; omega
      · simp [h1, h4]
        by_cases h5 : y < a <;> simp [h5] <;> omega

theorem one_le_avgRank {l : List ℚ} {x : ℚ} (hx : x ∈ l) : 1 ≤ avgRank l x := by
  have h1 := countEQ_pos hx
  have h1q : (1 : ℚ) ≤ (countEQ l x : ℚ) := by exact_mod_cast h1
  have h0 : (0 : ℚ) ≤ (countLT l x : ℚ) := by positivity
  unfold avgRank
  linarith

theorem avgRank_le_length {l : List ℚ} {x : ℚ} (hx : x ∈ l) :
    avgRank l x ≤ (l.length : ℚ) := by
  have h1 := countEQ_pos hx
  have h2 := countLT_add_countEQ_le_length l x
  have h1q : (1 : ℚ) ≤ (countEQ l x : ℚ) := by exact_mod_cast h1
  have h2q : (countLT l x : ℚ) + (countEQ l x : ℚ) ≤ (l.length : ℚ) := by
    exact_mod_cast h2
  unfold avgRank
  linarith

theorem avgRank_add_one_le {l : List ℚ} {a b : ℚ} (ha : a ∈ l) (hb : b ∈ l)
    (hab : b < a) : avgRank l b + 1 ≤ avgRank l a := by
  have h1 := countEQ_pos ha
  have h2 := countEQ_pos hb
  have h3 := countLT_add_countEQ_le_countLT l hab
  have h1q : (1 : ℚ) ≤ (countEQ l a : ℚ) := by exact_mod_cast h1
  have h2q : (1 : ℚ) ≤ (countEQ l b : ℚ) := by exact_mod_cast h2
  have h3q : (countLT l b : ℚ) + (countEQ l b : ℚ) ≤ (countLT l a : ℚ) := by
    exact_mod_cast h3
  unfold avgRank
  linarith

theorem rawPct_nonneg {l : List ℚ} {x : ℚ} (hx : x ∈ l) : 0 ≤ rawPct l x := by
  have h1 : (0 : ℚ) ≤ avgRank l x := le_trans (by norm_num) (one_le_avgRank hx)
  have h2 : (0 : ℚ) ≤ (l.length : ℚ) := by positivity
  unfold rawPct
  positivity

theorem rawPct_le_100 {l : List ℚ} {x : ℚ} (hx : x ∈ l) : rawPct l x ≤ 100 := by
  have hlen : (0 : ℚ) < (l.length : ℚ) := by
    have : 0 < l.length := List.length_pos.mpr (List.ne_nil_of_mem hx)
    exact_mod_cast this
  have h1 : avgRank l x / (l.length : ℚ) ≤ 1 := by
    rw [div_le_one hlen]
    exact avgRank_le_length hx
  calc avgRank l x / (l.length : ℚ) * 100 ≤ 1 * 100 := by
        apply mul_le_mul_of_nonneg_right h1 (by norm_num)
    _ = 100 := by norm_num

/-- C2: the claim states the percentile is `round(rank / count × 100)` clamped
to [0,100]; on the code it is integer truncation (`astype(int)`), not
rounding.  Amended: for every ranked ticker the percentile equals
`⌊rank / count × 100⌋` (truncation toward zero of a nonnegative value), and it
already lies in [0,100] with no clamping needed. -/
theorem c2_percentile_truncation (l : List ℚ) (x : ℚ) (hx : x ∈ l) :
    rscoreOf l x = ⌊rawPct l x⌋ ∧ 0 ≤ rscoreOf l x ∧ rscoreOf l x ≤ 100 := by
  have hfloor : rscoreOf l x = ⌊rawPct l x⌋ := pyTrunc_eq_floor _ (rawPct_nonneg hx)
  refine ⟨hfloor, ?_, ?_⟩
  · rw [hfloor]
    exact Int.floor_nonneg.mpr (rawPct_nonneg hx)
  · rw [hfloor]
    have := Int.floor_le_floor (α := ℚ) (rawPct_le_100 hx)
    simpa using this

/-- C2 counterexample: in a three-ticker snapshot with distinct scores the
middle ticker has rank 2, so the claimed percentile is round(2/3×100) = 67,
but the code computes int(2/3×100) = 66. -/
theorem c2_round_counterexample :
    rscoreOf [1, 2, 3] 2 = 66 ∧ specRscoreOf [1, 2, 3] 2 = 67 ∧
      rscoreOf [1, 2, 3] 2 ≠ specRscoreOf [1, 2, 3] 2 := by
  have hraw : rawPct [1, 2, 3] 2 = 200 / 3 := by
    norm_num [rawPct, avgRank, countLT, countEQ, List.countP_cons, List.countP_nil]
  have h1 : rscoreOf [1, 2, 3] 2 = 66 := by
    rw [rscoreOf, hraw, pyTrunc_eq_floor _ (by norm_num)]
    rw [Int.floor_eq_iff]
    norm_num
  have h2 : specRscoreOf [1, 2, 3] 2 = 67 := by
    rw [specRscoreOf, hraw, round_eq]
    have h67 : ⌊(200 : ℚ) / 3 + 1 / 2⌋ = 67 := by
      rw [Int.floor_eq_iff]
      norm_num
    rw [h67]
    norm_num
  exact ⟨h1, h2, by rw [h1, h2]; decide⟩

/-- C2 witness: the amended statement applied to the snapshot [1,2,3] and
score 2. -/
theorem c2_percentile_truncation_witness :
    rscoreOf [1, 2, 3] 2 = ⌊rawPct [1, 2, 3] 2⌋ ∧ 0 ≤ rscoreOf [1, 2, 3] 2 ∧
      rscoreOf [1, 2, 3] 2 ≤ 100 :=
  c2_percentile_truncation [1, 2, 3] 2 (by decide)

/-- C9: the integer percentile is monotone in the underlying composite score:
within one snapshot, a strictly higher score receives an rscore at least as
large (average ranks of strictly larger values are strictly larger, and floor
of the scaled rank is monotone). -/
theorem c9_rank_monotone (l : List ℚ) (a b : ℚ) (ha : a ∈ l) (hb : b ∈ l)
    (hab : b < a) : rscoreOf l b ≤ rscoreOf l a := by
  have hlen : (0 : ℚ) < (l.length : ℚ) := by
    have : 0 < l.length := List.length_pos.mpr (List.ne_nil_of_mem ha)
    exact_mod_cast this
  have hrank : avgRank l b ≤ avgRank l a := by
    have := avgRank_add_one_le ha hb hab
    linarith
  have hpct : rawPct l b ≤ rawPct l a := by
    unfold rawPct
    have h1 : avgRank l b / (l.length : ℚ) ≤ avgRank l a / (l.length : ℚ) := by
      gcongr
    exact mul_le_mul_of_nonneg_right h1 (by norm_num)
  rw [rscoreOf, rscoreOf, pyTrunc_eq_floor _ (rawPct_nonneg hb),
    pyTrunc_eq_floor _ (rawPct_nonneg ha)]
  exact Int.floor_le_floor hpct

/-- C9 witness: monotonicity applied to the snapshot [1,2,3] with scores 3
and 1. -/
theorem c9_rank_monotone_witness : rscoreOf [1, 2, 3] 1 ≤ rscoreOf [1, 2, 3] 3 :=
  c9_rank_monotone [1, 2, 3] 3 1 (by decide) (by decide) (by norm_num)

/-!
## STAGE2 lemmas (claims C3, C4, C5, C10)
-/

theorem count_true_lt_length {l : List Bool} (h : false ∈ l) :
    l.count true < l.length := by
  rcases eq_or_lt_of_le (List.count_le_length (a := true) (l := l)) with h2 | h2
  · exfalso
    have := List.count_eq_length.mp h2 false h
    exact absurd this (by decide)
  · exact h2

/-- A nonempty kline never makes `stage2` raise, and whenever one of the
twelve sub-conditions is false (uniformly in the extracted latest bar and
trailing volume mean) the strict all-12 criterion evaluates to false. -/
theorem stage2_eq_false_of_mem_false (kline : List Bar) (rs : List ℤ)
    (hne : kline ≠ [])
    (hmem : ∀ latest tv, false ∈ stage2Conds kline rs latest tv) :
    stage2 kline rs = some false := by
  obtain ⟨latest, hlast⟩ : ∃ y, kline.getLast? = some y := by
    cases hk : kline.getLast? with
    | none => exact absurd (List.getLast?_eq_none_iff.mp hk) hne
    | some y => exact ⟨y, rfl⟩
  have hlen : 0 < kline.length := List.length_pos.mpr hne
  have hdrop : (volsOf kline).drop ((volsOf kline).length - 20) ≠ [] := by
    apply List.ne_nil_of_length_pos
    rw [List.length_drop]
    simp only [volsOf, List.length_map]
    omega
  obtain ⟨tv, htv⟩ : ∃ v, tailMean 20 (volsOf kline) = some v := by
    unfold tailMean meanOpt
    rw [if_neg (by simpa [List.isEmpty_iff] using hdrop)]
    exact ⟨_, rfl⟩
  have hcount : (stage2Conds kline rs latest tv).count true < 12 := by
    have h1 := count_true_lt_length (hmem latest tv)
    have h2 : (stage2Conds kline rs latest tv).length = 12 := rfl
    omega
  rw [stage2, hlast, htv]
  simp only [Option.some.injEq]
  rw [decide_eq_false]
  omega

/-- C3 (code bug): the source comment says the criterion requires at least 20
days of history, but the guard is inverted (`if not kline.shape[0] < 20:
return False`), so every history with 20 or more bars returns False
immediately and the volume-contraction comparison is never evaluated. -/
theorem c3_recent_low_volume_always_false (kline : List Bar) (days : ℕ)
    (h : 20 ≤ kline.length) : recentLowVolume kline days = false := by
  unfold recentLowVolume
  have hlen : (kline.drop (kline.length - 20)).length = 20 := by
    rw [List.length_drop]
    omega
  rw [if_pos]
  rw [hlen]
  decide

/-- C3 witness: a 20-bar history whose latest volume (10) is below each of
the trailing 5/10/20-day mean volumes (all above 50), where the claim says
the criterion holds; the code still returns False. -/
theorem c3_recent_low_volume_witness :
    recentLowVolume
      ((List.range 19).map (fun i =>
        { date := (i : ℤ), high := 1, low := 1, close := 1, adjClose := 1,
          volume := 100 : Bar }) ++
        [{ date := 19, high := 1, low := 1, close := 1, adjClose := 1,
           volume := 10 : Bar }]) 1 = false :=
  c3_recent_low_volume_always_false _ 1 (by decide)

/-- C4: the claim states the MA150 > MA200 check is waived exactly when the
composite percentile is below 85 and enforced at 85 or above; the code does
the opposite (ta_analyzer.py line 159).  At percentile 0 (< 85) with
MA150 = 1 < MA200 = 2 the sub-condition is false, not waived; at percentile
85 with the same averages it is true, not the enforced comparison (which
would be false). -/
theorem c4_waiver_counterexample :
    stage2_c2 0 (some 1) (some 2) = false ∧
      stage2_c2 85 (some 1) (some 2) = true ∧
      optLt (some 2) (some 1) = false := by
  refine ⟨?_, rfl, ?_⟩ <;> decide

/-- C4 amended: the MA150 > MA200 sub-condition is waived (treated as
passing) exactly when the composite RS percentile is 85 or above, and
enforced as the comparison MA150 > MA200 when the percentile is below 85. -/
theorem c4_waiver_direction (rs0 : ℤ) (ma150 ma200 : Option ℚ) :
    (85 ≤ rs0 → stage2_c2 rs0 ma150 ma200 = true) ∧
      (rs0 < 85 → stage2_c2 rs0 ma150 ma200 = optLt ma200 ma150) := by
  constructor
  · intro h
    unfold stage2_c2
    rw [if_neg (by omega)]
  · intro h
    unfold stage2_c2
    rw [if_pos h]

/-- C4 witness: the amended statement applied at percentile 85 (waived) and
percentile 0 (enforced), with MA150 = 1 and MA200 = 2. -/
theorem c4_waiver_direction_witness :
    stage2_c2 85 (some 1) (some 2) = true ∧
      stage2_c2 0 (some 1) (some 2) = optLt (some 2) (some 1) :=
  ⟨(c4_waiver_direction 85 (some 1) (some 2)).1 (by decide),
   (c4_waiver_direction 0 (some 1) (some 2)).2 (by decide)⟩

/-- C10: constructed without RS percentiles, the analyzer falls back to the
zero vector [0,0,0,0]; then STAGE2 is false on every nonempty price history
(sub-condition 7, percentile > 70, fails) and each QULL_Mx criterion is false
on every price history (the Mx percentile 0 is not > 90). -/
theorem c10_default_rs_all_false (kline : List Bar) (hne : kline ≠ []) :
    rsOrDefault none = [0, 0, 0, 0] ∧
      stage2 kline (rsOrDefault none) = some false ∧
      qull 1 kline (rsOrDefault none) = false ∧
      qull 3 kline (rsOrDefault none) = false ∧
      qull 6 kline (rsOrDefault none) = false := by
  refine ⟨rfl, ?_, ?_, ?_, ?_⟩
  · apply stage2_eq_false_of_mem_false kline _ hne
    intro latest tv
    simp only [stage2Conds, List.mem_cons]
    right; right; right; right; right; right; left
    decide
  · simp [qull, rsOrDefault]
  · simp [qull, rsOrDefault]
  · simp [qull, rsOrDefault]

/-- C5 amended: with the drawdown computed as the code computes it —
`close / cummax(adjClose) - 1` over the trailing 90 bars — a max drawdown
below -0.35 makes sub-condition 12 false and therefore the strict all-12
STAGE2 criterion false, regardless of the other sub-conditions. -/
theorem c5_drawdown_fails_stage2 (kline : List Bar) (rs : List ℤ) (m : ℚ)
    (hdd : ddMin kline = some m) (hm : m < -0.35) :
    stage2_c12 kline = false ∧ stage2 kline rs = some false := by
  have h12 : stage2_c12 kline = false := by
    rw [stage2_c12.eq_def, hdd]
    simp [hm]
  have hne : kline ≠ [] := by
    intro h
    subst h
    rw [show ddMin ([] : List Bar) = none from rfl] at hdd
    exact Option.noConfusion hdd
  refine ⟨h12, ?_⟩
  apply stage2_eq_false_of_mem_false kline rs hne
  intro latest tv
  simp [stage2Conds, h12]

/-- C5 counterexample: the claim computes the drawdown as
`close / rolling-max(close) - 1`, but the code takes the running max over the
adjusted close (`stock["cummax"] = stock["adjClose"].cummax()`,
ta_analyzer.py line 182).  On a two-bar history with close [100, 60] and
adjClose [50, 60], the claim's drawdown is -0.40 < -0.35, yet sub-condition
12 evaluates to true. -/
theorem c5_drawdown_counterexample :
    specC5DrawdownMin [mixedBar 0 100 50, mixedBar 1 60 60] = some (-(2 : ℚ) / 5) ∧
      (-(2 : ℚ) / 5 < -0.35) ∧
      stage2_c12 [mixedBar 0 100 50, mixedBar 1 60 60] = true := by
  refine ⟨?_, by norm_num, ?_⟩
  · have h1 : specC5DrawdownMin [mixedBar 0 100 50, mixedBar 1 60 60] =
        some (min ((100 : ℚ) / 100 - 1) ((60 : ℚ) / 100 - 1)) := rfl
    rw [h1]
    norm_num [min_def]
  · have hdd : ddMin [mixedBar 0 100 50, mixedBar 1 60 60] =
        some (min ((100 : ℚ) / 50 - 1) ((60 : ℚ) / 60 - 1)) := rfl
    rw [stage2_c12.eq_def, hdd]
    norm_num [min_def]

/-- C5 witness: the spec's own synthetic series — dropping from 100 to 64 and
recovering to 90 (max drawdown -0.36) — applied to the amended theorem. -/
theorem c5_drawdown_fails_stage2_witness :
    stage2_c12 [flatBar 0 100, flatBar 1 64, flatBar 2 90] = false ∧
      stage2 [flatBar 0 100, flatBar 1 64, flatBar 2 90] [0, 0, 0, 0] = some false := by
  apply c5_drawdown_fails_stage2 _ _ (-(9 : ℚ) / 25) ?_ (by norm_num)
  have h1 : ddMin [flatBar 0 100, flatBar 1 64, flatBar 2 90] =
      some (min (min ((100 : ℚ) / 100 - 1) ((64 : ℚ) / 100 - 1))
        ((90 : ℚ) / 100 - 1)) := rfl
  rw [h1]
  norm_num [min_def]

/-!
## Primary composite score convention (claim C1)
-/

theorem lastPriceLE_eq_ffillAdj (t : ℤ) (l : List Bar) :
    lastPriceLE t l = ffillAdj l t := by
  induction l with
  | nil => rfl
  | cons b rest ih =>
    by_cases hb : b.date ≤ t
    · rw [lastPriceLE, if_pos hb]
      rw [ffillAdj, List.filter_cons, if_pos (by simpa using hb), List.getLast?_cons]
      rw [ih, ffillAdj]
      cases (rest.filter (fun b => decide (b.date ≤ t))).getLast? with
      | none => rfl
      | some y => rfl
    · rw [lastPriceLE, if_neg hb]
      rw [ffillAdj, List.filter_cons, if_neg (by simpa using hb)]
      exact ih

theorem ffillAdj_isSome {l : List Bar} {b : Bar} {t : ℤ} (hb : b ∈ l)
    (hbd : b.date ≤ t) : ∃ q, ffillAdj l t = some q := by
  have hmem : b ∈ l.filter (fun b => decide (b.date ≤ t)) :=
    List.mem_filter.mpr ⟨hb, by simpa using hbd⟩
  have hne := List.ne_nil_of_mem hmem
  cases hh : (l.filter (fun b => decide (b.date ≤ t))).getLast? with
  | none => exact absurd (List.getLast?_eq_none_iff.mp hh) hne
  | some y => exact ⟨y.adjClose, by rw [ffillAdj, hh]; rfl⟩

/-- C1 amended: the composite momentum score that feeds the primary RS rank
keeps the claimed weights 0.4/0.2/0.2/0.2 on the 90/180/270/360-day ratios,
but both the numerator and each denominator come from the daily forward-fill:
the price at (as-of date - H) is the last bar at or before that day, not the
first bar at or after it (that convention lives only in the uncalled
`get_rs`). -/
theorem c1_batch_score_formula (kline : List Bar) (d : ℤ) (f g : Bar)
    (h252 : 252 ≤ kline.length) (hf : kline.head? = some f)
    (hg : kline.getLast? = some g) (hfd : f.date ≤ d - 360) (hgd : d ≤ g.date) :
    ∃ a p90 p180 p270 p360,
      lastPriceLE d kline = some a ∧
      lastPriceLE (d - 90) kline = some p90 ∧
      lastPriceLE (d - 180) kline = some p180 ∧
      lastPriceLE (d - 270) kline = some p270 ∧
      lastPriceLE (d - 360) kline = some p360 ∧
      batchRsScore kline d =
        some (a / p90 * 0.4 + a / p180 * 0.2 + a / p270 * 0.2 + a / p360 * 0.2) := by
  have hfm : f ∈ kline := by
    cases kline with
    | nil => exact absurd hf (by simp)
    | cons x xs =>
      have : x = f := by simpa using hf
      exact this ▸ List.mem_cons_self x xs
  obtain ⟨a, ha⟩ := ffillAdj_isSome hfm (by omega : f.date ≤ d)
  obtain ⟨p90, h90⟩ := ffillAdj_isSome hfm (by omega : f.date ≤ d - 90)
  obtain ⟨p180, h180⟩ := ffillAdj_isSome hfm (by omega : f.date ≤ d - 180)
  obtain ⟨p270, h270⟩ := ffillAdj_isSome hfm (by omega : f.date ≤ d - 270)
  obtain ⟨p360, h360⟩ := ffillAdj_isSome hfm (by omega : f.date ≤ d - 360)
  refine ⟨a, p90, p180, p270, p360, ?_, ?_, ?_, ?_, ?_, ?_⟩
  · rw [lastPriceLE_eq_ffillAdj]; exact ha
  · rw [lastPriceLE_eq_ffillAdj]; exact h90
  · rw [lastPriceLE_eq_ffillAdj]; exact h180
  · rw [lastPriceLE_eq_ffillAdj]; exact h270
  · rw [lastPriceLE_eq_ffillAdj]; exact h360
  · unfold batchRsScore
    rw [if_neg (by omega), hf, hg]
    simp only
    rw [if_neg (by omega), ha, h90, h180, h270, h360]

/-- Concrete 252-bar history used for the C1 theorems: 251 daily bars at
price 1 (days 0-250) followed by one bar at price 2 on day 365, so day
(365 - 90) = 275 falls in the gap between the two price regimes. -/
def c1Kline : List Bar :=
  (List.range 251).map (fun i => flatBar (i : ℤ) 1) ++ [flatBar 365 2]

set_option maxRecDepth 40000 in
/-- C1 counterexample: on `c1Kline` at day 365 the ranked pipeline score uses
the forward-filled price at day 275 (price 1, from the bar of day 250),
giving 2.0, while the claimed first-bar-at-or-after convention picks the bar
of day 365 (price 2) for the 90-day horizon, giving 1.6: the claimed formula
does not equal the score that feeds the primary rank. -/
theorem c1_convention_counterexample :
    batchRsScore c1Kline 365 = some 2 ∧
      specMomentumScore c1Kline 365 = some (8 / 5) ∧
      batchRsScore c1Kline 365 ≠ specMomentumScore c1Kline 365 := by
  have hbatch : batchRsScore c1Kline 365 =
      some ((2 : ℚ) / 1 * 0.4 + 2 / 1 * 0.2 + 2 / 1 * 0.2 + 2 / 1 * 0.2) := by
    have hlen : ¬ c1Kline.length < 252 := by decide
    have hh : c1Kline.head? = some (flatBar 0 1) := by decide
    have hl : c1Kline.getLast? = some (flatBar 365 2) := by decide
    have ha : ffillAdj c1Kline 365 = some 2 := by decide
    have h90 : ffillAdj c1Kline (365 - 90) = some 1 := by decide
    have h180 : ffillAdj c1Kline (365 - 180) = some 1 := by decide
    have h270 : ffillAdj c1Kline (365 - 270) = some 1 := by decide
    have h360 : ffillAdj c1Kline (365 - 360) = some 1 := by decide
    unfold batchRsScore
    rw [if_neg hlen, hh, hl]
    simp only
    rw [if_neg (by decide), ha, h90, h180, h270, h360]
  have hspec : specMomentumScore c1Kline 365 =
      some (0.4 * ((2 : ℚ) / 2) + 0.2 * (2 / 1) + 0.2 * (2 / 1) + 0.2 * (2 / 1)) := by
    have ha : lastPriceLE 365 c1Kline = some 2 := by
      rw [lastPriceLE_eq_ffillAdj]; decide
    have h90 : firstPriceGE (365 - 90) c1Kline = some 2 := by decide
    have h180 : firstPriceGE (365 - 180) c1Kline = some 1 := by decide
    have h270 : firstPriceGE (365 - 270) c1Kline = some 1 := by decide
    have h360 : firstPriceGE (365 - 360) c1Kline = some 1 := by decide
    unfold specMomentumScore
    rw [ha, h90, h180, h270, h360]
  refine ⟨?_, ?_, ?_⟩
  · rw [hbatch]; norm_num
  · rw [hspec]; norm_num
  · rw [hbatch, hspec]
    intro h
    rw [Option.some.injEq] at h
    norm_num at h

set_option maxRecDepth 40000 in
/-- C1 witness: the amended forward-fill formula applied to `c1Kline` at day
365. -/
theorem c1_batch_score_formula_witness :
    ∃ a p90 p180 p270 p360,
      lastPriceLE 365 c1Kline = some a ∧
      lastPriceLE (365 - 90) c1Kline = some p90 ∧
      lastPriceLE (365 - 180) c1Kline = some p180 ∧
      lastPriceLE (365 - 270) c1Kline = some p270 ∧
      lastPriceLE (365 - 360) c1Kline = some p360 ∧
      batchRsScore c1Kline 365 =
        some (a / p90 * 0.4 + a / p180 * 0.2 + a / p270 * 0.2 + a / p360 * 0.2) :=
  c1_batch_score_formula c1Kline 365 (flatBar 0 1) (flatBar 365 2)
    (by decide) (by decide) (by decide) (by decide) (by decide)

/-!
## History floor (claim C6)
-/

theorem firstPriceGE_isSome {t : ℤ} {l : List Bar} {b : Bar} (hb : b ∈ l)
    (hbd : t ≤ b.date) : ∃ q, firstPriceGE t l = some q := by
  have hmem : b ∈ l.filter (fun b => decide (t ≤ b.date)) :=
    List.mem_filter.mpr ⟨hb, by simpa using hbd⟩
  have hne := List.ne_nil_of_mem hmem
  cases hh : (l.filter (fun b => decide (t ≤ b.date))).head? with
  | none => exact absurd (List.head?_eq_none_iff.mp hh) hne
  | some y => exact ⟨y.adjClose, by rw [firstPriceGE, hh]; rfl⟩

/-- C6: a ticker whose filtered history at the evaluation date has fewer than
252 bars (in particular exactly 251) is skipped by `get_rs` with a returned
None — `Except.ok none`, never a raised error — while with at least 252 bars
(in particular exactly 252), a trading-day date and some bar inside the
90-day lookback, it receives a score. -/
theorem c6_history_floor (calendar : List ℤ) (kline : List Bar) (d : ℤ) :
    ((kline.filter (fun b => decide (b.date ≤ d))).length < 252 →
      getRs calendar kline d = Except.ok none) ∧
    (calendar.contains d = true →
      252 ≤ (kline.filter (fun b => decide (b.date ≤ d))).length →
      (∃ b ∈ kline.filter (fun b => decide (b.date ≤ d)), d - 90 ≤ b.date) →
      ∃ q, getRs calendar kline d = Except.ok (some q)) := by
  constructor
  · intro hlen
    unfold getRs
    cases hc : calendar.contains d
    · simp
    · simp only [if_true]
      rw [if_pos hlen]
  · intro hc hlen ⟨b, hb, hbd⟩
    have h90 := firstPriceGE_isSome hb hbd
    have h180 := firstPriceGE_isSome hb (by omega : d - 180 ≤ b.date)
    have h270 := firstPriceGE_isSome hb (by omega : d - 270 ≤ b.date)
    have h360 := firstPriceGE_isSome hb (by omega : d - 360 ≤ b.date)
    obtain ⟨q90, h90⟩ := h90
    obtain ⟨q180, h180⟩ := h180
    obtain ⟨q270, h270⟩ := h270
    obtain ⟨q360, h360⟩ := h360
    have hne : kline.filter (fun b => decide (b.date ≤ d)) ≠ [] :=
      List.ne_nil_of_mem hb
    obtain ⟨g, hg⟩ : ∃ y, (kline.filter (fun b => decide (b.date ≤ d))).getLast? = some y := by
      cases hh : (kline.filter (fun b => decide (b.date ≤ d))).getLast? with
      | none => exact absurd (List.getLast?_eq_none_iff.mp hh) hne
      | some y => exact ⟨y, rfl⟩
    refine ⟨0.4 * (g.adjClose / q90) + 0.2 * (g.adjClose / q180) +
      0.2 * (g.adjClose / q270) + 0.2 * (g.adjClose / q360), ?_⟩
    unfold getRs
    rw [hc, if_pos rfl]
    simp only
    rw [if_neg (by omega), hg, h90, h180, h270, h360]
    simp only [Option.map_some']

set_option maxRecDepth 40000 in
/-- C6 witness: a 251-bar history at its last date is skipped with None; a
252-bar history on a trading day with a bar in the 90-day lookback receives a
score. -/
theorem c6_history_floor_witness :
    getRs [250] ((List.range 251).map (fun i => flatBar (i : ℤ) 1)) 250 =
        Except.ok none ∧
      ∃ q, getRs [251] ((List.range 252).map (fun i => flatBar (i : ℤ) 1)) 251 =
        Except.ok (some q) := by
  constructor
  · exact (c6_history_floor [250] ((List.range 251).map (fun i => flatBar (i : ℤ) 1))
      250).1 (by decide)
  · exact (c6_history_floor [251] ((List.range 252).map (fun i => flatBar (i : ℤ) 1))
      251).2 (by decide) (by decide) ⟨flatBar 251 1, by decide, by decide⟩

/-!
## Wall-clock dependence of get_result (claim C7)
-/

/-- Concrete eleven-bar history used for the C7 counterexample. -/
def c7Kline : List Bar := (List.range 11).map (fun i => flatBar (i : ℤ) 1)

set_option maxRecDepth 4000 in
/-- C7 counterexample: with an identical price window, RS snapshot, criterion
set and explicit evaluation date, `get_result` evaluated at wall-clock day 10
and at wall-clock day 1000 returns different MINERVINI_1M values:
`_cret_minervini` windows on `pd.to_datetime("today")`, not on the evaluation
date (ta_analyzer.py line 200), so the sampled MA200 series differs. -/
theorem c7_wall_clock_counterexample :
    getResult 10 c7Kline [0, 0, 0, 0] [Meas.minervini1m] (some 10) =
        some [(Meas.minervini1m, false)] ∧
      getResult 1000 c7Kline [0, 0, 0, 0] [Meas.minervini1m] (some 10) =
        some [(Meas.minervini1m, true)] ∧
      getResult 10 c7Kline [0, 0, 0, 0] [Meas.minervini1m] (some 10) ≠
        getResult 1000 c7Kline [0, 0, 0, 0] [Meas.minervini1m] (some 10) := by
  refine ⟨by decide, by decide, by decide⟩

theorem evalCret_today_irrelevant (t1 t2 : ℤ) (k : List Bar) (rs : List ℤ)
    (c : Meas) (h1 : c ≠ Meas.minervini1m) (h5 : c ≠ Meas.minervini5m) :
    evalCret t1 k rs c = evalCret t2 k rs c := by
  cases c <;> first | rfl | exact absurd rfl h5 | exact absurd rfl h1

/-- C7 amended: with an explicit evaluation date, criteria evaluation is a
pure function of (price window, RS snapshot, criterion set, evaluation date)
for every criterion set avoiding the MINERVINI criteria; those two criteria
additionally read the wall-clock date, which bounds their sampling window. -/
theorem c7_pure_without_minervini (t1 t2 : ℤ) (kline : List Bar) (rs : List ℤ)
    (cret : List Meas) (d : ℤ)
    (h1 : Meas.minervini1m ∉ cretOrDefault cret)
    (h5 : Meas.minervini5m ∉ cretOrDefault cret) :
    getResult t1 kline rs cret (some d) = getResult t2 kline rs cret (some d) := by
  unfold getResult
  simp only [Option.getD_some]
  generalize cretOrDefault cret = l at h1 h5
  induction l with
  | nil => rfl
  | cons c t ih =>
    have hc1 : c ≠ Meas.minervini1m := fun h => h1 (h ▸ List.mem_cons_self c t)
    have hc5 : c ≠ Meas.minervini5m := fun h => h5 (h ▸ List.mem_cons_self c t)
    have ht1 : Meas.minervini1m ∉ t := fun h => h1 (List.mem_cons_of_mem c h)
    have ht5 : Meas.minervini5m ∉ t := fun h => h5 (List.mem_cons_of_mem c h)
    rw [List.mapM_cons, List.mapM_cons, ih ht1 ht5,
      evalCret_today_irrelevant t1 t2 _ rs c hc1 hc5]

/-- C7 witness: wall-clock independence applied at wall-clock days 0 and 1
with the STAGE2-only criterion set. -/
theorem c7_pure_without_minervini_witness :
    getResult 0 [] [] [Meas.stage2m] (some 0) =
      getResult 1 [] [] [Meas.stage2m] (some 0) :=
  c7_pure_without_minervini 0 1 [] [] [Meas.stage2m] 0 (by decide) (by decide)

/-!
## Zero-eligible-ticker runs (claim C8)
-/

/-- C8 counterexample: with zero relative-strength rows for the date,
`DailyScreener.initialize` raises (the column selection
`relative_strength[["rscore", "M1, M3", "M6"]]` on the empty, column-less
frame fails) instead of producing an empty result. -/
theorem c8_zero_rows_counterexample :
    dailyInitialize [] = Except.error "KeyError: not in index" := rfl

/-- C8 amended: a screener run over a date with zero eligible tickers fails
with a raised error — the malformed column selection raises a KeyError, and
even without it the explicit guard would raise
ValueError("No relative strength data found!") — rather than producing an
explicit empty/no-op result. -/
theorem c8_zero_rows_raises (rows : List RsRecord) (h : rows = []) :
    ∃ msg, dailyInitialize rows = Except.error msg := by
  subst h
  exact ⟨"KeyError: not in index", rfl⟩

/-- C8 witness: the amended statement applied to the empty row set. -/
theorem c8_zero_rows_raises_witness :
    ∃ msg, dailyInitialize [] = Except.error msg :=
  c8_zero_rows_raises [] rfl

/-- C10 witness: the default-RS statement applied to a one-bar history. -/
theorem c10_default_rs_all_false_witness :
    rsOrDefault none = [0, 0, 0, 0] ∧
      stage2 [flatBar 0 1] (rsOrDefault none) = some false ∧
      qull 1 [flatBar 0 1] (rsOrDefault none) = false ∧
      qull 3 [flatBar 0 1] (rsOrDefault none) = false ∧
      qull 6 [flatBar 0 1] (rsOrDefault none) = false :=
  c10_default_rs_all_false [flatBar 0 1] (by decide)

end StockWizard
